import Mathlib

/-!
Shallow embedding of `mungegithub/mungers/sync/issue-sync.go`.

The Go file implements an `IssueSyncer` whose `Sync` method reconciles an
`IssueSource` (an item with a stable `Title`, a unique `ID` token, a `Body`
text and `Labels`) against a remote issue tracker, via two collaborators:
an `IssueFinder` (title key -> candidate issue numbers) and a github
config/object handle (fetch issue, list comments, close, comment, create).

The embedding models:
  * the tracker-visible state (`World`: issues with number/state/body/
    comments, the finder's key -> number associations, and the in-memory
    synced set);
  * the outcome of each fallible collaborator call through an `Oracle` of
    failure flags (transport failures are outside the program's control);
  * the sequence of collaborator calls through a trace of `Event`s;
  * Go `panic` (the programmer-error guard in `updateIssue`/`createIssue`)
    as a `fatal` outcome distinct from the recoverable `err` outcome.

Every function below mirrors the correspondingly-named Go function.
-/

/-- Character-list prefix test, used to express Go `strings.Contains`. -/
def listPre : List Char → List Char → Bool
  | [], _ => true
  | _ :: _, [] => false
  | a :: as, b :: bs => a == b && listPre as bs

/-- Go `strings.Contains hay needle`: `needle` occurs as a contiguous
substring of `hay` (the empty needle is contained in everything). -/
def strContains (hay needle : String) : Bool :=
  (List.range (hay.data.length + 1)).any fun k => listPre needle.data (hay.data.drop k)

/-- A tracker comment (`github.IssueComment`): its body may be absent. -/
structure GComment where
  body : Option String
deriving DecidableEq

/-- A tracker issue as the syncer sees it (`github.MungeObject` /
`github.Issue`): number, optional state, optional body, and its comments
(fetched lazily through `ListComments`, whose failure the `Oracle` decides). -/
structure GIssue where
  number : Int
  state : Option String
  body : Option String
  comments : List GComment
deriving DecidableEq

/-- The `IssueSource` interface: `Title()`, `ID()`, `Body(newIssue)`,
`Labels()`. All four are pure accessors in the Go interface contract. -/
structure Item where
  Title : String
  ID : String
  Body : Bool → String
  Labels : List String

/-- Tracker-visible state plus the syncer's own state: the tracker's
issues, the `IssueFinder`'s (key, number) associations (in insertion
order, which fixes `AllIssuesForKey`'s return order), and the syncer's
in-memory `synced` set of ID tokens. -/
structure World where
  issues : List GIssue
  finder : List (String × Int)
  synced : List String
deriving DecidableEq

/-- Failure behaviour of the collaborators for one `Sync` call: which
fetches, comment listings, closes and comment posts fail, whether issue
creation fails, and the number the tracker assigns to a created issue. -/
structure Oracle where
  fetchFails : Int → Bool
  listFails : Int → Bool
  closeFails : Int → Bool
  commentFails : Int → Bool
  createFails : Bool
  newNumber : Int

/-- One collaborator call, recorded in discovery order. -/
inductive Event where
  | lookupAll (key : String)
  | fetch (n : Int)
  | listComments (n : Int)
  | closeIssue (n : Int) (msg : String)
  | writeComment (n : Int) (body : String)
  | newIssue (title : String) (body : String) (labels : List String)
  | created (key : String) (n : Int)
deriving DecidableEq

/-- Result of a `Sync` call: success, a recoverable error (Go `error`
return value), or a Go `panic` from the programmer-error guard. -/
inductive SyncOutcome where
  | ok
  | err (e : String)
  | fatal (e : String)
deriving DecidableEq

/-- `lookupAll`/`fetch`/`listComments` are read-only collaborator calls. -/
def Event.isRead : Event → Bool
  | .lookupAll _ => true
  | .fetch _ => true
  | .listComments _ => true
  | _ => false

/-- A close-issue call. -/
def Event.isClose : Event → Bool
  | .closeIssue _ _ => true
  | _ => false

/-- A comment post or an issue creation. -/
def Event.isWriteOrCreate : Event → Bool
  | .writeComment _ _ => true
  | .newIssue _ _ _ => true
  | _ => false

/-- An issue creation or its registration with the finder. -/
def Event.isCreateEvent : Event → Bool
  | .newIssue _ _ _ => true
  | .created _ _ => true
  | _ => false

/-- `IssueFinder.AllIssuesForKey`: the numbers associated to a key, in
association order. -/
def allIssuesForKey (w : World) (key : String) : List Int :=
  (w.finder.filter fun p => p.1 == key).map fun p => p.2

/-- Fetch-by-number within the tracker state. -/
def findNum (l : List GIssue) (n : Int) : Option GIssue :=
  l.find? fun i => i.number == n

/-- Closing issue `n` on the tracker sets its state to "closed". -/
def closeNum (l : List GIssue) (n : Int) : List GIssue :=
  l.map fun i => if i.number == n then { i with state := some "closed" } else i

/-- Sequentially closing each listed issue (in order), as `markAsDups` does. -/
def closeNums (l : List GIssue) (ds : List GIssue) : List GIssue :=
  ds.foldl (fun acc u => closeNum acc u.number) l

/-- Posting a comment appends it to the issue's comment sequence. -/
def commentNum (l : List GIssue) (n : Int) (b : String) : List GIssue :=
  l.map fun i =>
    if i.number == n then { i with comments := i.comments ++ [{ body := some b }] } else i

/-- Opaque text of an underlying transport error. -/
def ioErr : String := "io error"

/-- The guard's panic message
(`"Programmer error: %v does not contain %v!"`). -/
def progErrMsg (body id : String) : String :=
  "Programmer error: " ++ body ++ " does not contain " ++ id ++ "!"

/-- `CloseIssuef`'s message (`"This is a duplicate of #%v; closing"`). -/
def dupMsg (ofN : Int) : String :=
  "This is a duplicate of #" ++ toString ofN ++ "; closing"

/-- `markAsDups`'s error wrap
(`"failed to close %v as a dup of %v: %v"`). -/
def closeErrMsg (n ofN : Int) : String :=
  "failed to close " ++ toString n ++ " as a dup of " ++ toString ofN ++ ": " ++ ioErr

/-- Rendering of the argument `source.ID` in the Go wrap
`fmt.Errorf("error making issue for %v: %v", source.ID, err)`. The source
passes the method value itself (no call parentheses), not `source.ID()`;
per the fmt documentation the default `%v` format for a func value is
`%p`, so the rendered text is the function's address in base 16,
independent of the ID token. We model it as a fixed address literal. -/
def goFuncValueText : String := "0x4782a0"

/-- The Go nil-guarded containment test
`b != nil && strings.Contains(*b, token)`. -/
def bodyContains (b : Option String) (token : String) : Bool :=
  match b with
  | some s => strContains s token
  | none => false

/-- `Config.GetObject`: fetch an issue by number; fails on transport
failure or when the tracker has no such issue. -/
def getObject (o : Oracle) (w : World) (n : Int) : Except String GIssue :=
  if o.fetchFails n then Except.error ioErr
  else
    match findNum w.issues n with
    | some i => Except.ok i
    | none => Except.error "not found"

/-- `IssueSyncer.isRecorded`: the issue's body contains the ID token, or
(listing the comments, which may fail) some present comment body contains
it; absent comment bodies are skipped. Returns the result together with
the collaborator calls made. -/
def isRecorded (o : Oracle) (obj : GIssue) (source : Item) :
    Except String Bool × List Event :=
  if bodyContains obj.body source.ID then
    (Except.ok true, [])
  else if o.listFails obj.number then
    (Except.error ("error getting comments for " ++ toString obj.number ++ ": " ++ ioErr),
     [Event.listComments obj.number])
  else
    (Except.ok (obj.comments.any fun c => bodyContains c.body source.ID),
     [Event.listComments obj.number])

/-- The loop body of `IssueSyncer.findPreviousIssues`: for each candidate
number fetch the issue (a failure aborts), check `isRecorded` (a failure
aborts), accumulate `found` and, when the issue's state is present and
equal to "open", append it to `updatableIssues`. -/
def findPrevLoop (o : Oracle) (w : World) (source : Item) :
    List Int → Bool → List GIssue → Except String (Bool × List GIssue) × List Event
  | [], found, upd => (Except.ok (found, upd), [])
  | n :: rest, found, upd =>
    match getObject o w n with
    | Except.error e =>
      (Except.error ("error getting object for " ++ toString n ++ ": " ++ e), [Event.fetch n])
    | Except.ok obj =>
      match isRecorded o obj source with
      | (Except.error e, evs2) =>
        (Except.error ("error checking whether item " ++ source.ID ++ " is recorded in issue "
            ++ toString n ++ ": " ++ e),
         Event.fetch n :: evs2)
      | (Except.ok r, evs2) =>
        let found1 := found || r
        let upd1 := if obj.state == some "open" then upd ++ [obj] else upd
        let rr := findPrevLoop o w source rest found1 upd1
        (rr.1, Event.fetch n :: (evs2 ++ rr.2))

/-- `IssueSyncer.findPreviousIssues`: ask the finder for all candidate
numbers for the item's title and run the loop. -/
def findPreviousIssues (o : Oracle) (w : World) (source : Item) :
    Except String (Bool × List GIssue) × List Event :=
  let rr := findPrevLoop o w source (allIssuesForKey w source.Title) false []
  (rr.1, Event.lookupAll source.Title :: rr.2)

/-- `IssueSyncer.markAsDups`: close each duplicate in order with a message
referencing the kept issue's number; the first close failure aborts with
the wrapped error, leaving the remaining duplicates untouched. -/
def markAsDups (o : Oracle) (w : World) (dups : List GIssue) (ofN : Int) :
    Except String Unit × World × List Event :=
  match dups with
  | [] => (Except.ok (), w, [])
  | dup :: rest =>
    if o.closeFails dup.number then
      (Except.error (closeErrMsg dup.number ofN), w, [Event.closeIssue dup.number (dupMsg ofN)])
    else
      let w1 := { w with issues := closeNum w.issues dup.number }
      let r := markAsDups o w1 rest ofN
      (r.1, r.2.1, Event.closeIssue dup.number (dupMsg ofN) :: r.2.2)

/-- `IssueSyncer.updateIssue`: guard that `Body(false)` contains the ID
token (panic otherwise), then post it as a comment on the chosen issue. -/
def updateIssue (o : Oracle) (w : World) (obj : GIssue) (source : Item) :
    SyncOutcome × World × List Event :=
  let body := source.Body false
  if strContains body source.ID then
    if o.commentFails obj.number then
      (SyncOutcome.err ioErr, w, [Event.writeComment obj.number body])
    else
      (SyncOutcome.ok, { w with issues := commentNum w.issues obj.number body },
       [Event.writeComment obj.number body])
  else
    (SyncOutcome.fatal (progErrMsg body source.ID), w, [])

/-- Result of `IssueSyncer.createIssue`. -/
inductive CreateRes where
  | ok (n : Int)
  | err (e : String)
  | fatal (e : String)
deriving DecidableEq

/-- `IssueSyncer.createIssue`: guard that `Body(true)` contains the ID
token (panic otherwise), then create a new issue with the item's title,
body and labels; the tracker assigns the new number and the created issue
starts open. -/
def createIssue (o : Oracle) (w : World) (source : Item) :
    CreateRes × World × List Event :=
  let body := source.Body true
  if strContains body source.ID then
    if o.createFails then
      (CreateRes.err ioErr, w, [Event.newIssue source.Title body source.Labels])
    else
      let issue : GIssue :=
        { number := o.newNumber, state := some "open", body := some body, comments := [] }
      (CreateRes.ok o.newNumber, { w with issues := w.issues ++ [issue] },
       [Event.newIssue source.Title body source.Labels])
  else
    (CreateRes.fatal (progErrMsg body source.ID), w, [])

/-- The tail of `IssueSyncer.Sync` after candidate discovery and duplicate
closing: if any candidate recorded the item, mark synced and stop; else
comment on the first open candidate (wrapping a comment failure with the
issue number and the item's ID); else create a new issue (wrapping a
creation failure -- note the wrap formats the method value `source.ID`,
see `goFuncValueText`), register it with the finder, and mark synced. -/
def syncAfterDiscovery (o : Oracle) (w : World) (source : Item)
    (found : Bool) (updatableIssues : List GIssue) : SyncOutcome × World × List Event :=
  if found then
    (SyncOutcome.ok, { w with synced := w.synced ++ [source.ID] }, [])
  else
    match updatableIssues with
    | obj :: _ =>
      match updateIssue o w obj source with
      | (SyncOutcome.ok, w2, evs2) =>
        (SyncOutcome.ok, { w2 with synced := w2.synced ++ [source.ID] }, evs2)
      | (SyncOutcome.err e, w2, evs2) =>
        (SyncOutcome.err ("error updating issue " ++ toString obj.number ++ " for "
            ++ source.ID ++ ": " ++ e), w2, evs2)
      | (SyncOutcome.fatal e, w2, evs2) => (SyncOutcome.fatal e, w2, evs2)
    | [] =>
      match createIssue o w source with
      | (CreateRes.ok n, w2, evs2) =>
        (SyncOutcome.ok,
         { w2 with finder := w2.finder ++ [(source.Title, n)],
                   synced := w2.synced ++ [source.ID] },
         evs2 ++ [Event.created source.Title n])
      | (CreateRes.err e, w2, evs2) =>
        (SyncOutcome.err ("error making issue for " ++ goFuncValueText ++ ": " ++ e), w2, evs2)
      | (CreateRes.fatal e, w2, evs2) => (SyncOutcome.fatal e, w2, evs2)

/-- `IssueSyncer.Sync`: early-exit when the ID token is already in the
synced set; otherwise discover candidates, close duplicate open issues
when more than one is open (keeping the first), then apply the
termination rules (`syncAfterDiscovery`). -/
def sync (o : Oracle) (w : World) (source : Item) : SyncOutcome × World × List Event :=
  if w.synced.contains source.ID then
    (SyncOutcome.ok, w, [])
  else
    match findPreviousIssues o w source with
    | (Except.error e, evs) => (SyncOutcome.err e, w, evs)
    | (Except.ok (found, updatableIssues), evs) =>
      match updatableIssues with
      | u0 :: u1 :: rest =>
        match markAsDups o w (u1 :: rest) u0.number with
        | (Except.error e, w1, evs1) => (SyncOutcome.err e, w1, evs ++ evs1)
        | (Except.ok _, w1, evs1) =>
          let r := syncAfterDiscovery o w1 source found updatableIssues
          (r.1, r.2.1, evs ++ evs1 ++ r.2.2)
      | _ =>
        let r := syncAfterDiscovery o w source found updatableIssues
        (r.1, r.2.1, evs ++ r.2.2)

/-- An issue numbered `n` exists and its state is present and "open". -/
def openIn (l : List GIssue) (n : Int) : Bool :=
  match findNum l n with
  | some i => i.state == some "open"
  | none => false

/-- The candidate numbers for a title that are currently open on the
tracker: the spec's "open tracking issues for a given title". -/
def openCandNumbers (w : World) (title : String) : List Int :=
  (allIssuesForKey w title).filter fun n => openIn w.issues n

/-- The claim's recorded notion, stated from the spec's words: the body is
present and contains the token, or some comment's present body contains
the token. Used to compare `isRecorded` against the spec. -/
def RecordedSpec (obj : GIssue) (it : Item) : Prop :=
  (∃ b, obj.body = some b ∧ strContains b it.ID = true) ∨
  (∃ c, c ∈ obj.comments ∧ ∃ b, c.body = some b ∧ strContains b it.ID = true)

/-- Pure recorded value of a candidate number in a world (meaningful when
its fetch and, when consulted, its comment listing succeed). -/
def recAt (w : World) (it : Item) (n : Int) : Bool :=
  match findNum w.issues n with
  | some i => bodyContains i.body it.ID || i.comments.any fun c => bodyContains c.body it.ID
  | none => false

/-- A candidate whose fetch succeeds and whose recorded-check does not hit
a comment-listing failure (either the body already contains the token, so
the listing is skipped, or the listing succeeds). -/
def candReady (o : Oracle) (w : World) (it : Item) (n : Int) : Prop :=
  o.fetchFails n = false ∧
  ∃ i, findNum w.issues n = some i ∧
    (bodyContains i.body it.ID = true ∨ o.listFails n = false)

/-- The open candidate snapshot at a number, when there is one. -/
def openObjAt (w : World) (n : Int) : Option GIssue :=
  match findNum w.issues n with
  | some i => if i.state == some "open" then some i else none
  | none => none

/-- The duplicate-closing events of a `Sync` call whose discovery produced
the given open candidates (empty when at most one is open). -/
def dupEvents : List GIssue → List Event
  | u0 :: u1 :: rest => (u1 :: rest).map fun u => Event.closeIssue u.number (dupMsg u0.number)
  | _ => []

/-! ### Concrete fixtures used by witnesses and counterexamples -/

/-- An oracle on which every collaborator call succeeds. -/
def oAll : Oracle :=
  { fetchFails := fun _ => false, listFails := fun _ => false, closeFails := fun _ => false,
    commentFails := fun _ => false, createFails := false, newNumber := 7 }

/-- An oracle on which every comment listing fails. -/
def oList : Oracle :=
  { fetchFails := fun _ => false, listFails := fun _ => true, closeFails := fun _ => false,
    commentFails := fun _ => false, createFails := false, newNumber := 7 }

/-- An oracle on which issue creation fails. -/
def oCreateFail : Oracle :=
  { fetchFails := fun _ => false, listFails := fun _ => false, closeFails := fun _ => false,
    commentFails := fun _ => false, createFails := true, newNumber := 9 }

/-- A well-behaved item: its bodies contain its ID token. -/
def it1 : Item := { Title := "t1", ID := "id1", Body := fun _ => "x id1", Labels := ["l1"] }

/-- An item violating the Body contract: no body contains its ID token. -/
def itBad : Item := { Title := "t6", ID := "id6", Body := fun _ => "nope", Labels := [] }

/-- The spec's end-to-end scenario item. -/
def it9 : Item :=
  { Title := "Flaky test X", ID := "flaky-test-x-v1",
    Body := fun b => (if b then "new " else "cmt ") ++ "flaky-test-x-v1",
    Labels := ["kind/flake"] }

/-- An item for the duplicate-open-issues scenarios. -/
def it5 : Item := { Title := "t5", ID := "id5", Body := fun _ => "b id5", Labels := [] }

/-- An empty tracker. -/
def wEmpty : World := { issues := [], finder := [], synced := [] }

/-- An empty tracker whose syncer has already processed `it1`. -/
def wSynced1 : World := { issues := [], finder := [], synced := ["id1"] }

/-- Three open candidates for `it1`'s title, none recording the token. -/
def i45 : GIssue := { number := 45, state := some "open", body := some "b", comments := [] }
def i46 : GIssue := { number := 46, state := some "open", body := some "b", comments := [] }
def i47 : GIssue := { number := 47, state := some "open", body := some "b", comments := [] }
def w4 : World :=
  { issues := [i45, i46, i47], finder := [("t1", 45), ("t1", 46), ("t1", 47)], synced := [] }

/-- A single open unrecorded candidate, used with the failing-listing oracle. -/
def i71 : GIssue := { number := 71, state := some "open", body := some "b", comments := [] }
def w7 : World := { issues := [i71], finder := [("t1", 71)], synced := [] }

/-- An issue with an empty body whose comment records `it1`'s token. -/
def obj3 : GIssue :=
  { number := 31, state := some "open", body := none, comments := [{ body := some "zz id1 zz" }] }

/-- A closed candidate recording `it1`'s token. -/
def i10 : GIssue :=
  { number := 101, state := some "closed", body := some "zz id1 zz", comments := [] }
def w10 : World := { issues := [i10], finder := [("t1", 101)], synced := [] }

/-- Two open candidates for `it5`'s title, neither recording the token. -/
def i51 : GIssue := { number := 51, state := some "open", body := some "x", comments := [] }
def i52 : GIssue := { number := 52, state := some "open", body := some "y", comments := [] }
def w5open : World :=
  { issues := [i51, i52], finder := [("t5", 51), ("t5", 52)], synced := [] }

/-- The same two open candidates, but `it5`'s token is already synced. -/
def w5syn : World :=
  { issues := [i51, i52], finder := [("t5", 51), ("t5", 52)], synced := ["id5"] }

/-! ### Basic helper lemmas -/

theorem contains_append_self (l : List String) (a : String) :
    (l ++ [a]).contains a = true := by
  induction l with
  | nil => simp
  | cons b t ih => simp_all

theorem find?_map_pres (l : List GIssue) (f : GIssue → GIssue)
    (hf : ∀ i, (f i).number = i.number) (n : Int) :
    List.find? (fun i => i.number == n) (l.map f)
      = (List.find? (fun i => i.number == n) l).map f := by
  induction l with
  | nil => rfl
  | cons a t ih =>
    simp only [List.map_cons, List.find?, hf a]
    cases h : (a.number == n) <;> simp [h, ih]

theorem closeNum_pres (m : Int) (i : GIssue) :
    ((fun i => if i.number == m then { i with state := some "closed" } else i) i).number
      = i.number := by
  by_cases h : i.number = m <;> simp [h]

theorem findNum_closeNum (l : List GIssue) (m n : Int) :
    findNum (closeNum l m) n
      = (findNum l n).map
          (fun i => if i.number == m then { i with state := some "closed" } else i) := by
  simp only [findNum, closeNum]
  exact find?_map_pres l _ (closeNum_pres m) n

theorem commentNum_pres (m : Int) (b : String) (i : GIssue) :
    ((fun i => if i.number == m then { i with comments := i.comments ++ [{ body := some b }] }
               else i) i).number = i.number := by
  by_cases h : i.number = m <;> simp [h]

theorem findNum_commentNum (l : List GIssue) (m : Int) (b : String) (n : Int) :
    findNum (commentNum l m b) n
      = (findNum l n).map
          (fun i => if i.number == m
                    then { i with comments := i.comments ++ [{ body := some b }] } else i) := by
  simp only [findNum, commentNum]
  exact find?_map_pres l _ (commentNum_pres m b) n

theorem findNum_beq {l : List GIssue} {n : Int} {i : GIssue} (h : findNum l n = some i) :
    i.number = n := by
  simp only [findNum] at h
  have := List.find?_some h
  exact eq_of_beq this

theorem openIn_closeNum_self (l : List GIssue) (m : Int) :
    openIn (closeNum l m) m = false := by
  simp only [openIn, findNum_closeNum]
  cases h : findNum l m with
  | none => rfl
  | some i =>
    have hn : i.number = m := findNum_beq h
    simp [hn]

theorem openIn_closeNum_other (l : List GIssue) (m n : Int) (h : n ≠ m) :
    openIn (closeNum l m) n = openIn l n := by
  simp only [openIn, findNum_closeNum]
  cases hf : findNum l n with
  | none => rfl
  | some i =>
    have hn : i.number = n := findNum_beq hf
    have hm : ¬ i.number = m := by rw [hn]; exact h
    simp [hm]

theorem openIn_commentNum (l : List GIssue) (m : Int) (b : String) (n : Int) :
    openIn (commentNum l m b) n = openIn l n := by
  simp only [openIn, findNum_commentNum]
  cases hf : findNum l n with
  | none => rfl
  | some i => by_cases h : i.number = m <;> simp [h]

theorem closeNums_cons (l : List GIssue) (d : GIssue) (ds : List GIssue) :
    closeNums l (d :: ds) = closeNums (closeNum l d.number) ds := rfl

theorem openIn_closeNums_notmem (ds : List GIssue) (l : List GIssue) (n : Int)
    (h : n ∉ ds.map fun u => u.number) :
    openIn (closeNums l ds) n = openIn l n := by
  induction ds generalizing l with
  | nil => rfl
  | cons d t ih =>
    simp only [List.map_cons, List.mem_cons, not_or] at h
    rw [closeNums_cons, ih _ h.2, openIn_closeNum_other _ _ _ h.1]

theorem openIn_closeNums_mem (ds : List GIssue) (l : List GIssue) (n : Int)
    (h : n ∈ ds.map fun u => u.number) :
    openIn (closeNums l ds) n = false := by
  induction ds generalizing l with
  | nil => simp at h
  | cons d t ih =>
    rw [closeNums_cons]
    by_cases ht : n ∈ t.map fun u => u.number
    · exact ih _ ht
    · have hn : n = d.number := by
        simp only [List.map_cons, List.mem_cons] at h
        tauto
      rw [openIn_closeNums_notmem _ _ _ ht, hn, openIn_closeNum_self]

theorem dedup_length_le_one {l : List Int} (a : Int) (h : ∀ x ∈ l, x = a) :
    l.dedup.length ≤ 1 := by
  have hsub : ∀ x ∈ l.dedup, x = a := fun x hx => h x (List.dedup_subset l hx)
  have hnd : l.dedup.Nodup := List.nodup_dedup l
  cases hd : l.dedup with
  | nil => simp
  | cons x t =>
    cases ht : t with
    | nil => simp
    | cons y s =>
      exfalso
      rw [hd, ht] at hsub hnd
      have hx : x = a := hsub x (by simp)
      have hy : y = a := hsub y (by simp)
      rw [List.nodup_cons] at hnd
      exact hnd.1 (by simp [hx, hy])

theorem isRead_not_writeOrCreate (ev : Event) (h : ev.isRead = true) :
    ev.isWriteOrCreate = false := by
  cases ev <;> simp_all [Event.isRead, Event.isWriteOrCreate]

theorem isRead_not_createEvent (ev : Event) (h : ev.isRead = true) :
    ev.isCreateEvent = false := by
  cases ev <;> simp_all [Event.isRead, Event.isCreateEvent]

theorem isClose_not_writeOrCreate (ev : Event) (h : ev.isClose = true) :
    ev.isWriteOrCreate = false := by
  cases ev <;> simp_all [Event.isClose, Event.isWriteOrCreate]

theorem isClose_not_createEvent (ev : Event) (h : ev.isClose = true) :
    ev.isCreateEvent = false := by
  cases ev <;> simp_all [Event.isClose, Event.isCreateEvent]

/-! ### markAsDups lemmas -/

theorem markAsDups_succeeds (o : Oracle) (ofN : Int) :
    ∀ (ds : List GIssue) (w : World), (∀ u ∈ ds, o.closeFails u.number = false) →
    markAsDups o w ds ofN
      = (Except.ok (), { w with issues := closeNums w.issues ds },
         ds.map fun u => Event.closeIssue u.number (dupMsg ofN)) := by
  intro ds
  induction ds with
  | nil => intro w _; rfl
  | cons d t ih =>
    intro w h
    have hd : o.closeFails d.number = false := h d (by simp)
    have ht : ∀ u ∈ t, o.closeFails u.number = false := fun u hu => h u (by simp [hu])
    simp only [markAsDups, hd, Bool.false_eq_true, if_false,
      ih { w with issues := closeNum w.issues d.number } ht, closeNums_cons, List.map_cons]

theorem markAsDups_ok_world (o : Oracle) (ofN : Int) :
    ∀ (ds : List GIssue) (w w1 : World) (u : Unit) (evs1 : List Event),
    markAsDups o w ds ofN = (Except.ok u, w1, evs1) →
    w1 = { w with issues := closeNums w.issues ds } := by
  intro ds
  induction ds with
  | nil =>
    intro w w1 u evs1 h
    simp only [markAsDups, Prod.mk.injEq] at h
    rw [← h.2.1]
    rfl
  | cons d t ih =>
    intro w w1 u evs1 h
    simp only [markAsDups] at h
    cases hc : o.closeFails d.number with
    | true => rw [hc] at h; simp at h
    | false =>
      rw [hc] at h
      simp only [Bool.false_eq_true, if_false, Prod.mk.injEq] at h
      rw [closeNums_cons]
      rcases hm : markAsDups o { w with issues := closeNum w.issues d.number } t ofN
        with ⟨r1, w2, evs2⟩
      rw [hm] at h
      cases r1 with
      | error e => simp at h
      | ok v => exact h.2.1 ▸ ih _ _ _ _ hm

theorem markAsDups_fails (o : Oracle) (ofN : Int) (bad : GIssue)
    (hbad : o.closeFails bad.number = true) :
    ∀ (pre post : List GIssue) (w : World), (∀ u ∈ pre, o.closeFails u.number = false) →
    markAsDups o w (pre ++ bad :: post) ofN
      = (Except.error (closeErrMsg bad.number ofN),
         { w with issues := closeNums w.issues pre },
         (pre.map fun u => Event.closeIssue u.number (dupMsg ofN))
           ++ [Event.closeIssue bad.number (dupMsg ofN)]) := by
  intro pre
  induction pre with
  | nil =>
    intro post w _
    simp only [List.nil_append, markAsDups, hbad, if_true, List.map_nil, List.nil_append]
    rfl
  | cons d t ih =>
    intro post w h
    have hd : o.closeFails d.number = false := h d (by simp)
    have ht : ∀ u ∈ t, o.closeFails u.number = false := fun u hu => h u (by simp [hu])
    rw [List.cons_append]
    simp only [markAsDups, hd, Bool.false_eq_true, if_false]
    rw [ih post { w with issues := closeNum w.issues d.number } ht]
    simp [closeNums_cons]

theorem markAsDups_synced_finder (o : Oracle) (ofN : Int) :
    ∀ (ds : List GIssue) (w : World),
    (markAsDups o w ds ofN).2.1.synced = w.synced
      ∧ (markAsDups o w ds ofN).2.1.finder = w.finder := by
  intro ds
  induction ds with
  | nil => intro w; exact ⟨rfl, rfl⟩
  | cons d t ih =>
    intro w
    cases hc : o.closeFails d.number with
    | true => simp [markAsDups, hc]
    | false =>
      simp only [markAsDups, hc, Bool.false_eq_true, if_false]
      exact ih { w with issues := closeNum w.issues d.number }

theorem markAsDups_events (o : Oracle) (ofN : Int) :
    ∀ (ds : List GIssue) (w : World),
    ∀ ev ∈ (markAsDups o w ds ofN).2.2, ev.isClose = true := by
  intro ds
  induction ds with
  | nil => intro w ev hev; simp [markAsDups] at hev
  | cons d t ih =>
    intro w ev hev
    cases hc : o.closeFails d.number with
    | true =>
      simp only [markAsDups, hc, if_true, List.mem_singleton] at hev
      simp [hev, Event.isClose]
    | false =>
      simp only [markAsDups, hc, Bool.false_eq_true, if_false, List.mem_cons] at hev
      rcases hev with hev | hev
      · simp [hev, Event.isClose]
      · exact ih _ ev hev

/-- First-failure decomposition of a list under a Boolean predicate. -/
theorem first_failure_split (p : GIssue → Bool) :
    ∀ ds : List GIssue, (∀ u ∈ ds, p u = false) ∨
      ∃ pre bad post, ds = pre ++ bad :: post ∧ (∀ u ∈ pre, p u = false) ∧ p bad = true := by
  intro ds
  induction ds with
  | nil => left; simp
  | cons d t ih =>
    cases hd : p d with
    | true => exact Or.inr ⟨[], d, t, by simp, by simp, hd⟩
    | false =>
      rcases ih with h | ⟨pre, bad, post, heq, hpre, hbad⟩
      · left
        intro u hu
        rcases List.mem_cons.mp hu with h1 | h1
        · rw [h1]; exact hd
        · exact h u h1
      · right
        refine ⟨d :: pre, bad, post, by simp [heq], ?_, hbad⟩
        intro u hu
        rcases List.mem_cons.mp hu with h1 | h1
        · rw [h1]; exact hd
        · exact hpre u h1

/-! ### Discovery-loop lemmas -/

theorem isRecorded_events (o : Oracle) (obj : GIssue) (it : Item) :
    ∀ ev ∈ (isRecorded o obj it).2, ev.isRead = true := by
  intro ev hev
  simp only [isRecorded] at hev
  by_cases h1 : bodyContains obj.body it.ID
  · simp [h1] at hev
  · by_cases h2 : o.listFails obj.number <;>
      simp [h1, h2] at hev <;> simp [hev, Event.isRead]

theorem isRecorded_ok_val (o : Oracle) (obj : GIssue) (it : Item) (r : Bool)
    (evs : List Event) (h : isRecorded o obj it = (Except.ok r, evs)) :
    r = (bodyContains obj.body it.ID || obj.comments.any fun c => bodyContains c.body it.ID) := by
  simp only [isRecorded] at h
  by_cases h1 : bodyContains obj.body it.ID
  · simp only [h1, if_true, Prod.mk.injEq] at h
    have := h.1
    simp only [Except.ok.injEq] at this
    simp [h1, ← this]
  · by_cases h2 : o.listFails obj.number
    · simp [h1, h2] at h
    · simp only [h1, h2, Bool.false_eq_true, if_false, Prod.mk.injEq] at h
      have := h.1
      simp only [Except.ok.injEq] at this
      simp [h1, ← this]

theorem findPrevLoop_events (o : Oracle) (w : World) (it : Item) :
    ∀ (nums : List Int) (f : Bool) (u : List GIssue),
    ∀ ev ∈ (findPrevLoop o w it nums f u).2, ev.isRead = true := by
  intro nums
  induction nums with
  | nil => intro f u ev hev; simp [findPrevLoop] at hev
  | cons n rest ih =>
    intro f u ev hev
    simp only [findPrevLoop] at hev
    cases hg : getObject o w n with
    | error e =>
      simp only [hg, List.mem_singleton] at hev
      simp [hev, Event.isRead]
    | ok obj =>
      simp only [hg] at hev
      rcases hr : isRecorded o obj it with ⟨rr, evs2⟩
      simp only [hr] at hev
      cases rr with
      | error e =>
        simp only [List.mem_cons] at hev
        rcases hev with hev | hev
        · simp [hev, Event.isRead]
        · exact isRecorded_events o obj it ev (by rw [hr]; exact hev)
      | ok r =>
        simp only [List.mem_cons, List.mem_append] at hev
        rcases hev with hev | hev | hev
        · simp [hev, Event.isRead]
        · exact isRecorded_events o obj it ev (by rw [hr]; exact hev)
        · exact ih _ _ ev hev

theorem findPreviousIssues_events (o : Oracle) (w : World) (it : Item) :
    ∀ ev ∈ (findPreviousIssues o w it).2, ev.isRead = true := by
  intro ev hev
  simp only [findPreviousIssues, List.mem_cons] at hev
  rcases hev with hev | hev
  · simp [hev, Event.isRead]
  · exact findPrevLoop_events o w it _ _ _ ev hev

theorem findPrevLoop_ok_upd (o : Oracle) (w : World) (it : Item) :
    ∀ (nums : List Int) (f : Bool) (u : List GIssue) (found : Bool) (upd : List GIssue),
    (findPrevLoop o w it nums f u).1 = Except.ok (found, upd) →
    upd.map (fun i => i.number)
      = (u.map fun i => i.number) ++ nums.filter fun n => openIn w.issues n := by
  intro nums
  induction nums with
  | nil =>
    intro f u found upd h
    simp only [findPrevLoop, Except.ok.injEq, Prod.mk.injEq] at h
    rw [← h.2]
    simp
  | cons n rest ih =>
    intro f u found upd h
    simp only [findPrevLoop] at h
    cases hg : getObject o w n with
    | error e => simp [hg] at h
    | ok obj =>
      simp only [hg] at h
      rcases hr : isRecorded o obj it with ⟨rr, evs2⟩
      simp only [hr] at h
      cases rr with
      | error e => simp at h
      | ok r =>
        have hopen : openIn w.issues n = (obj.state == some "open") := by
          simp only [getObject] at hg
          by_cases hf : o.fetchFails n
          · simp [hf] at hg
          · simp only [hf, Bool.false_eq_true, if_false] at hg
            cases hfn : findNum w.issues n with
            | none => simp [hfn] at hg
            | some i =>
              simp only [hfn, Except.ok.injEq] at hg
              simp [openIn, hfn, hg]
        have hrec := ih _ _ _ _ h
        rw [List.filter_cons, hopen]
        cases hst : (obj.state == some "open") with
        | true =>
          rw [hst] at hrec
          simp only [if_true, List.map_append] at hrec
          rw [hrec]
          have hnum : obj.number = n := by
            simp only [getObject] at hg
            by_cases hf : o.fetchFails n
            · simp [hf] at hg
            · simp only [hf, Bool.false_eq_true, if_false] at hg
              cases hfn : findNum w.issues n with
              | none => simp [hfn] at hg
              | some i =>
                simp only [hfn, Except.ok.injEq] at hg
                rw [← hg]
                exact findNum_beq hfn
          simp [hnum, List.append_assoc]
        | false =>
          rw [hst] at hrec
          simpa using hrec

theorem findPrevLoop_listfail (o : Oracle) (w : World) (it : Item) (n : Int)
    (hlf : o.listFails n = true) :
    ∀ (nums : List Int) (f : Bool) (u : List GIssue),
    Event.listComments n ∈ (findPrevLoop o w it nums f u).2 →
    ∃ e, (findPrevLoop o w it nums f u).1 = Except.error e := by
  intro nums
  induction nums with
  | nil => intro f u h; simp [findPrevLoop] at h
  | cons m rest ih =>
    intro f u h
    simp only [findPrevLoop] at h ⊢
    cases hg : getObject o w m with
    | error e => simp only [hg] at h ⊢; exact ⟨_, rfl⟩
    | ok obj =>
      simp only [hg] at h ⊢
      rcases hr : isRecorded o obj it with ⟨rr, evs2⟩
      simp only [hr] at h ⊢
      cases rr with
      | error e => exact ⟨_, rfl⟩
      | ok r =>
        simp only [List.mem_cons, List.mem_append] at h
        rcases h with h | h | h
        · simp at h
        · exfalso
          simp only [isRecorded] at hr
          by_cases h1 : bodyContains obj.body it.ID
          · simp only [h1, if_true, Prod.mk.injEq] at hr
            rw [← hr.2] at h
            simp at h
          · by_cases h2 : o.listFails obj.number
            · simp [h1, h2] at hr
            · simp only [h1, h2, Bool.false_eq_true, if_false, Prod.mk.injEq] at hr
              rw [← hr.2] at h
              simp only [List.mem_singleton, Event.listComments.injEq] at h
              exact h2 (h ▸ hlf)
        · exact ih _ _ h

theorem not_mem_of_contains_false {l : List String} {a : String}
    (h : l.contains a = false) : a ∉ l := by
  simpa using h

/-- The issue object the tracker creates for a new-issue call. -/
def newIssueObj (o : Oracle) (it : Item) : GIssue :=
  { number := o.newNumber, state := some "open", body := some (it.Body true), comments := [] }

/-! ### Forward run of discovery under ready candidates -/

theorem isRecorded_ready (o : Oracle) (i : GIssue) (it : Item)
    (h : bodyContains i.body it.ID = true ∨ o.listFails i.number = false) :
    ∃ evs, isRecorded o i it
      = (Except.ok (bodyContains i.body it.ID
          || i.comments.any fun c => bodyContains c.body it.ID), evs) := by
  by_cases h1 : bodyContains i.body it.ID
  · exact ⟨[], by simp [isRecorded, h1]⟩
  · have h2 : o.listFails i.number = false := by tauto
    exact ⟨[Event.listComments i.number], by simp [isRecorded, h1, h2]⟩

theorem findPrevLoop_run (o : Oracle) (w : World) (it : Item) :
    ∀ (nums : List Int) (f : Bool) (u : List GIssue),
    (∀ n ∈ nums, candReady o w it n) →
    ∃ evs, findPrevLoop o w it nums f u
      = (Except.ok (f || nums.any (recAt w it), u ++ nums.filterMap (openObjAt w)), evs) := by
  intro nums
  induction nums with
  | nil => intro f u _; exact ⟨[], by simp [findPrevLoop]⟩
  | cons n rest ih =>
    intro f u h
    obtain ⟨hf, i, hfn, hready⟩ := h n (by simp)
    have hrest : ∀ m ∈ rest, candReady o w it m := fun m hm => h m (by simp [hm])
    have hgo : getObject o w n = Except.ok i := by simp [getObject, hf, hfn]
    have hin : i.number = n := findNum_beq hfn
    rw [← hin] at hready
    obtain ⟨evs2, hrec⟩ := isRecorded_ready o i it hready
    have hrn : recAt w it n
        = (bodyContains i.body it.ID || i.comments.any fun c => bodyContains c.body it.ID) := by
      simp [recAt, hfn]
    obtain ⟨evsr, hloop⟩ := ih (f || recAt w it n) (u ++ (openObjAt w n).toList) hrest
    refine ⟨Event.fetch n :: (evs2 ++ evsr), ?_⟩
    simp only [findPrevLoop, hgo, hrec, ← hrn]
    have hupd : (if (i.state == some "open") = true then u ++ [i] else u)
        = u ++ (openObjAt w n).toList := by
      simp only [openObjAt, hfn]
      cases hst : (i.state == some "open") <;> simp [hst]
    rw [hupd, hloop]
    have hfm : (openObjAt w n).toList ++ List.filterMap (openObjAt w) rest
        = List.filterMap (openObjAt w) (n :: rest) := by
      cases ho : openObjAt w n <;> simp [List.filterMap_cons, ho]
    simp [Bool.or_assoc, ← hfm]

theorem findPreviousIssues_run (o : Oracle) (w : World) (it : Item)
    (h : ∀ n ∈ allIssuesForKey w it.Title, candReady o w it n) :
    ∃ evs, findPreviousIssues o w it
      = (Except.ok ((allIssuesForKey w it.Title).any (recAt w it),
          (allIssuesForKey w it.Title).filterMap (openObjAt w)), evs) := by
  obtain ⟨evs, hrun⟩ := findPrevLoop_run o w it (allIssuesForKey w it.Title) false [] h
  exact ⟨Event.lookupAll it.Title :: evs, by simp [findPreviousIssues, hrun]⟩

/-! ### Shapes of a Sync call -/

theorem sync_discovery_err (o : Oracle) (w : World) (it : Item) (e : String) (evs : List Event)
    (h0 : w.synced.contains it.ID = false)
    (hfp : findPreviousIssues o w it = (Except.error e, evs)) :
    sync o w it = (SyncOutcome.err e, w, evs) := by
  have h0m : it.ID ∉ w.synced := not_mem_of_contains_false h0
  simp [sync, h0m, hfp]

theorem sync_found (o : Oracle) (w : World) (it : Item) (upd : List GIssue) (evs : List Event)
    (h0 : w.synced.contains it.ID = false)
    (hfp : findPreviousIssues o w it = (Except.ok (true, upd), evs))
    (hclose : ∀ u ∈ upd.drop 1, o.closeFails u.number = false) :
    sync o w it = (SyncOutcome.ok,
      { issues := closeNums w.issues (upd.drop 1), finder := w.finder,
        synced := w.synced ++ [it.ID] },
      evs ++ dupEvents upd) := by
  have h0m : it.ID ∉ w.synced := not_mem_of_contains_false h0
  match upd with
  | [] =>
    simp [sync, h0m, hfp, syncAfterDiscovery, dupEvents, closeNums]
  | [u0] =>
    simp [sync, h0m, hfp, syncAfterDiscovery, dupEvents, closeNums]
  | u0 :: u1 :: rest =>
    have hcl : ∀ u ∈ u1 :: rest, o.closeFails u.number = false := by
      simpa using hclose
    simp only [sync, hfp, markAsDups_succeeds o u0.number (u1 :: rest) w hcl,
      syncAfterDiscovery, if_true, dupEvents, List.drop_succ_cons, List.drop_zero]
    simp [h0m]

theorem sync_update (o : Oracle) (w : World) (it : Item) (u0 : GIssue) (us : List GIssue)
    (evs : List Event)
    (h0 : w.synced.contains it.ID = false)
    (hfp : findPreviousIssues o w it = (Except.ok (false, u0 :: us), evs))
    (hclose : ∀ u ∈ us, o.closeFails u.number = false)
    (hg : strContains (it.Body false) it.ID = true)
    (hcf : o.commentFails u0.number = false) :
    sync o w it = (SyncOutcome.ok,
      { issues := commentNum (closeNums w.issues us) u0.number (it.Body false),
        finder := w.finder, synced := w.synced ++ [it.ID] },
      evs ++ dupEvents (u0 :: us) ++ [Event.writeComment u0.number (it.Body false)]) := by
  have h0m : it.ID ∉ w.synced := not_mem_of_contains_false h0
  match us with
  | [] =>
    simp [sync, h0m, hfp, syncAfterDiscovery, updateIssue, hg, hcf, dupEvents, closeNums]
  | u1 :: rest =>
    have hcl : ∀ u ∈ u1 :: rest, o.closeFails u.number = false := by simpa using hclose
    simp only [sync, hfp, markAsDups_succeeds o u0.number (u1 :: rest) w hcl,
      syncAfterDiscovery, updateIssue, hg, if_true, hcf, dupEvents]
    simp [h0m]

theorem sync_update_commentFail (o : Oracle) (w : World) (it : Item) (u0 : GIssue)
    (us : List GIssue) (evs : List Event)
    (h0 : w.synced.contains it.ID = false)
    (hfp : findPreviousIssues o w it = (Except.ok (false, u0 :: us), evs))
    (hclose : ∀ u ∈ us, o.closeFails u.number = false)
    (hg : strContains (it.Body false) it.ID = true)
    (hcf : o.commentFails u0.number = true) :
    sync o w it = (SyncOutcome.err ("error updating issue " ++ toString u0.number ++ " for "
        ++ it.ID ++ ": " ++ ioErr),
      { issues := closeNums w.issues us, finder := w.finder, synced := w.synced },
      evs ++ dupEvents (u0 :: us) ++ [Event.writeComment u0.number (it.Body false)]) := by
  have h0m : it.ID ∉ w.synced := not_mem_of_contains_false h0
  match us with
  | [] =>
    simp [sync, h0m, hfp, syncAfterDiscovery, updateIssue, hg, hcf, dupEvents, closeNums]
  | u1 :: rest =>
    have hcl : ∀ u ∈ u1 :: rest, o.closeFails u.number = false := by simpa using hclose
    simp only [sync, hfp, markAsDups_succeeds o u0.number (u1 :: rest) w hcl,
      syncAfterDiscovery, updateIssue, hg, if_true, hcf, dupEvents]
    simp [h0m]

theorem sync_update_fatal (o : Oracle) (w : World) (it : Item) (u0 : GIssue)
    (us : List GIssue) (evs : List Event)
    (h0 : w.synced.contains it.ID = false)
    (hfp : findPreviousIssues o w it = (Except.ok (false, u0 :: us), evs))
    (hclose : ∀ u ∈ us, o.closeFails u.number = false)
    (hg : strContains (it.Body false) it.ID = false) :
    sync o w it = (SyncOutcome.fatal (progErrMsg (it.Body false) it.ID),
      { issues := closeNums w.issues us, finder := w.finder, synced := w.synced },
      evs ++ dupEvents (u0 :: us)) := by
  have h0m : it.ID ∉ w.synced := not_mem_of_contains_false h0
  match us with
  | [] =>
    simp [sync, h0m, hfp, syncAfterDiscovery, updateIssue, hg, dupEvents, closeNums]
  | u1 :: rest =>
    have hcl : ∀ u ∈ u1 :: rest, o.closeFails u.number = false := by simpa using hclose
    simp only [sync, hfp, markAsDups_succeeds o u0.number (u1 :: rest) w hcl,
      syncAfterDiscovery, updateIssue, hg, dupEvents]
    simp [h0m]

theorem sync_create (o : Oracle) (w : World) (it : Item) (evs : List Event)
    (h0 : w.synced.contains it.ID = false)
    (hfp : findPreviousIssues o w it = (Except.ok (false, []), evs))
    (hg : strContains (it.Body true) it.ID = true)
    (hcf : o.createFails = false) :
    sync o w it = (SyncOutcome.ok,
      { issues := w.issues ++ [newIssueObj o it],
        finder := w.finder ++ [(it.Title, o.newNumber)], synced := w.synced ++ [it.ID] },
      evs ++ [Event.newIssue it.Title (it.Body true) it.Labels,
              Event.created it.Title o.newNumber]) := by
  have h0m : it.ID ∉ w.synced := not_mem_of_contains_false h0
  simp [sync, h0m, hfp, syncAfterDiscovery, createIssue, hg, hcf, newIssueObj]

theorem sync_create_fail (o : Oracle) (w : World) (it : Item) (evs : List Event)
    (h0 : w.synced.contains it.ID = false)
    (hfp : findPreviousIssues o w it = (Except.ok (false, []), evs))
    (hg : strContains (it.Body true) it.ID = true)
    (hcf : o.createFails = true) :
    sync o w it = (SyncOutcome.err ("error making issue for " ++ goFuncValueText ++ ": " ++ ioErr),
      w, evs ++ [Event.newIssue it.Title (it.Body true) it.Labels]) := by
  have h0m : it.ID ∉ w.synced := not_mem_of_contains_false h0
  simp [sync, h0m, hfp, syncAfterDiscovery, createIssue, hg, hcf]

theorem sync_create_fatal (o : Oracle) (w : World) (it : Item) (evs : List Event)
    (h0 : w.synced.contains it.ID = false)
    (hfp : findPreviousIssues o w it = (Except.ok (false, []), evs))
    (hg : strContains (it.Body true) it.ID = false) :
    sync o w it = (SyncOutcome.fatal (progErrMsg (it.Body true) it.ID), w, evs) := by
  have h0m : it.ID ∉ w.synced := not_mem_of_contains_false h0
  simp [sync, h0m, hfp, syncAfterDiscovery, createIssue, hg]

theorem sync_dupfail (o : Oracle) (w : World) (it : Item) (found : Bool) (u0 : GIssue)
    (pre post : List GIssue) (bad : GIssue) (evs : List Event)
    (h0 : w.synced.contains it.ID = false)
    (hfp : findPreviousIssues o w it
      = (Except.ok (found, u0 :: (pre ++ bad :: post)), evs))
    (hpre : ∀ u ∈ pre, o.closeFails u.number = false)
    (hbad : o.closeFails bad.number = true) :
    sync o w it = (SyncOutcome.err (closeErrMsg bad.number u0.number),
      { issues := closeNums w.issues pre, finder := w.finder, synced := w.synced },
      evs ++ ((pre.map fun u => Event.closeIssue u.number (dupMsg u0.number))
        ++ [Event.closeIssue bad.number (dupMsg u0.number)])) := by
  have h0m : it.ID ∉ w.synced := not_mem_of_contains_false h0
  match pre with
  | [] =>
    simp only [List.nil_append] at hfp ⊢
    simp [sync, h0m, hfp, markAsDups, hbad, closeNums]
  | p0 :: ptail =>
    have hm := markAsDups_fails o u0.number bad hbad (p0 :: ptail) post w hpre
    simp only [List.cons_append] at hfp hm ⊢
    simp [sync, h0m, hfp, hm]

/-! ### Master case analysis of a Sync call -/

theorem mem_of_contains_true {l : List String} {a : String}
    (h : l.contains a = true) : a ∈ l := by
  simpa using h

theorem sync_early (o : Oracle) (w : World) (it : Item)
    (h0 : w.synced.contains it.ID = true) :
    sync o w it = (SyncOutcome.ok, w, []) := by
  simp [sync, mem_of_contains_true h0]

theorem dupEvents_isClose (upd : List GIssue) :
    ∀ ev ∈ dupEvents upd, ev.isClose = true := by
  match upd with
  | [] => simp [dupEvents]
  | [u] => simp [dupEvents]
  | u0 :: u1 :: rest =>
    intro ev hev
    simp only [dupEvents, List.mem_map] at hev
    obtain ⟨u, -, he⟩ := hev
    rw [← he]
    rfl

theorem findPreviousIssues_listfail (o : Oracle) (w : World) (it : Item) (n : Int)
    (hlf : o.listFails n = true)
    (h : Event.listComments n ∈ (findPreviousIssues o w it).2) :
    ∃ e, (findPreviousIssues o w it).1 = Except.error e := by
  simp only [findPreviousIssues, List.mem_cons] at h ⊢
  rcases h with h | h
  · simp at h
  · exact findPrevLoop_listfail o w it n hlf _ _ _ h

theorem writeOrCreate_false_impls (ev : Event) (h : ev.isWriteOrCreate = false)
    (P : Int → String → Prop) (Q : String → String → List String → Prop) :
    (∀ n b, ev = Event.writeComment n b → P n b)
      ∧ (∀ t b ls, ev = Event.newIssue t b ls → Q t b ls) := by
  refine ⟨fun n b he => ?_, fun t b ls he => ?_⟩ <;>
    · rw [he] at h
      simp [Event.isWriteOrCreate] at h

/-- Exhaustive behavioural invariant of `sync`, from which several claims
are projected: success marks the token synced; a recoverable error leaves
the synced set untouched; every posted comment body and every created
issue body contains the ID token; and a failing comment listing forces an
error result. -/
theorem sync_master (o : Oracle) (w : World) (it : Item) :
    ((sync o w it).1 = SyncOutcome.ok → (sync o w it).2.1.synced.contains it.ID = true) ∧
    (∀ e, (sync o w it).1 = SyncOutcome.err e → (sync o w it).2.1.synced = w.synced) ∧
    (∀ ev ∈ (sync o w it).2.2,
      (∀ n b, ev = Event.writeComment n b → strContains b it.ID = true)
        ∧ (∀ t b ls, ev = Event.newIssue t b ls → strContains b it.ID = true)) ∧
    (∀ n, Event.listComments n ∈ (sync o w it).2.2 → o.listFails n = true →
      ∃ e, (sync o w it).1 = SyncOutcome.err e) := by
  cases h0 : w.synced.contains it.ID with
  | true =>
    have hsync := sync_early o w it h0
    rw [hsync]
    refine ⟨fun _ => h0, fun e he => by simp at he, fun ev hev => by simp at hev,
      fun n hn _ => by simp at hn⟩
  | false =>
    rcases hfp : findPreviousIssues o w it with ⟨r, evs⟩
    have hevs : ∀ ev ∈ evs, ev.isRead = true := by
      have h := findPreviousIssues_events o w it
      rw [hfp] at h
      exact h
    have hlistfail : ∀ n, o.listFails n = true → Event.listComments n ∈ evs →
        ∃ e, r = Except.error e := by
      intro n hlf hmem
      have h := findPreviousIssues_listfail o w it n hlf (by rw [hfp]; exact hmem)
      rw [hfp] at h
      exact h
    cases r with
    | error e =>
      have hsync := sync_discovery_err o w it e evs h0 hfp
      rw [hsync]
      refine ⟨fun h => by simp at h, fun e he => rfl, ?_, fun n hn _ => ⟨e, rfl⟩⟩
      intro ev hev
      exact writeOrCreate_false_impls ev
        (isRead_not_writeOrCreate ev (hevs ev hev)) _ _
    | ok p =>
      rcases p with ⟨found, upd⟩
      -- helper facts for the read-only discovery part of the trace
      have himps : ∀ ev ∈ evs,
          (∀ n b, ev = Event.writeComment n b → strContains b it.ID = true)
            ∧ (∀ t b ls, ev = Event.newIssue t b ls → strContains b it.ID = true) :=
        fun ev hev => writeOrCreate_false_impls ev
          (isRead_not_writeOrCreate ev (hevs ev hev)) _ _
      have hdimps : ∀ u2 : List GIssue, ∀ ev ∈ dupEvents u2,
          (∀ n b, ev = Event.writeComment n b → strContains b it.ID = true)
            ∧ (∀ t b ls, ev = Event.newIssue t b ls → strContains b it.ID = true) :=
        fun u2 ev hev => writeOrCreate_false_impls ev
          (isClose_not_writeOrCreate ev (dupEvents_isClose u2 ev hev)) _ _
      have hreadfail : ∀ n, Event.listComments n ∈ evs → o.listFails n = true → False := by
        intro n hmem hlf
        obtain ⟨e, he⟩ := hlistfail n hlf hmem
        simp at he
      have hnotlist_dup : ∀ (u2 : List GIssue) (n : Int),
          Event.listComments n ∈ dupEvents u2 → False := by
        intro u2 n hmem
        have := dupEvents_isClose u2 _ hmem
        simp [Event.isClose] at this
      match upd with
      | [] =>
        cases found with
        | true =>
          have hsync := sync_found o w it [] evs h0 hfp (by simp)
          rw [hsync]
          simp only [dupEvents, List.append_nil]
          refine ⟨fun _ => contains_append_self _ _, fun e he => by simp at he, himps, ?_⟩
          intro n hn hlf
          exact (hreadfail n hn hlf).elim
        | false =>
          cases hg : strContains (it.Body true) it.ID with
          | false =>
            have hsync := sync_create_fatal o w it evs h0 hfp hg
            rw [hsync]
            refine ⟨fun h => by simp at h, fun e he => by simp at he, himps, ?_⟩
            intro n hn hlf
            exact (hreadfail n hn hlf).elim
          | true =>
            cases hcf : o.createFails with
            | true =>
              have hsync := sync_create_fail o w it evs h0 hfp hg hcf
              rw [hsync]
              refine ⟨fun h => by simp at h, fun e he => rfl, ?_, fun n hn _ => ⟨_, rfl⟩⟩
              intro ev hev
              simp only [List.mem_append, List.mem_singleton] at hev
              rcases hev with hev | hev
              · exact himps ev hev
              · rw [hev]
                refine ⟨fun n b he => by simp at he, fun t b ls he => ?_⟩
                simp only [Event.newIssue.injEq] at he
                rw [← he.2.1]
                exact hg
            | false =>
              have hsync := sync_create o w it evs h0 hfp hg hcf
              rw [hsync]
              refine ⟨fun _ => contains_append_self _ _, fun e he => by simp at he, ?_, ?_⟩
              · intro ev hev
                simp only [List.mem_append, List.mem_cons, List.not_mem_nil, or_false] at hev
                rcases hev with hev | hev | hev
                · exact himps ev hev
                · rw [hev]
                  refine ⟨fun n b he => by simp at he, fun t b ls he => ?_⟩
                  simp only [Event.newIssue.injEq] at he
                  rw [← he.2.1]
                  exact hg
                · rw [hev]
                  exact ⟨fun n b he => by simp at he, fun t b ls he => by simp at he⟩
              · intro n hn hlf
                simp only [List.mem_append, List.mem_cons, List.not_mem_nil, or_false] at hn
                rcases hn with hn | hn | hn
                · exact (hreadfail n hn hlf).elim
                · simp at hn
                · simp at hn
      | u0 :: us =>
        rcases first_failure_split (fun u => o.closeFails u.number) us with hok |
          ⟨pre, bad, post, hsplit, hpre, hbad⟩
        · -- every needed duplicate close succeeds
          cases found with
          | true =>
            have hsync := sync_found o w it (u0 :: us) evs h0 hfp (by simpa using hok)
            rw [hsync]
            refine ⟨fun _ => contains_append_self _ _, fun e he => by simp at he, ?_, ?_⟩
            · intro ev hev
              simp only [List.mem_append] at hev
              rcases hev with hev | hev
              · exact himps ev hev
              · exact hdimps _ ev hev
            · intro n hn hlf
              simp only [List.mem_append] at hn
              rcases hn with hn | hn
              · exact (hreadfail n hn hlf).elim
              · exact (hnotlist_dup _ n hn).elim
          | false =>
            cases hg : strContains (it.Body false) it.ID with
            | false =>
              have hsync := sync_update_fatal o w it u0 us evs h0 hfp hok hg
              rw [hsync]
              refine ⟨fun h => by simp at h, fun e he => by simp at he, ?_, ?_⟩
              · intro ev hev
                simp only [List.mem_append] at hev
                rcases hev with hev | hev
                · exact himps ev hev
                · exact hdimps _ ev hev
              · intro n hn hlf
                simp only [List.mem_append] at hn
                rcases hn with hn | hn
                · exact (hreadfail n hn hlf).elim
                · exact (hnotlist_dup _ n hn).elim
            | true =>
              cases hcf : o.commentFails u0.number with
              | true =>
                have hsync := sync_update_commentFail o w it u0 us evs h0 hfp hok hg hcf
                rw [hsync]
                refine ⟨fun h => by simp at h, fun e he => rfl, ?_, fun n hn _ => ⟨_, rfl⟩⟩
                intro ev hev
                simp only [List.mem_append, List.mem_singleton] at hev
                rcases hev with (hev | hev) | hev
                · exact himps ev hev
                · exact hdimps _ ev hev
                · rw [hev]
                  refine ⟨fun n b he => ?_, fun t b ls he => by simp at he⟩
                  simp only [Event.writeComment.injEq] at he
                  rw [← he.2]
                  exact hg
              | false =>
                have hsync := sync_update o w it u0 us evs h0 hfp hok hg hcf
                rw [hsync]
                refine ⟨fun _ => contains_append_self _ _, fun e he => by simp at he, ?_, ?_⟩
                · intro ev hev
                  simp only [List.mem_append, List.mem_singleton] at hev
                  rcases hev with (hev | hev) | hev
                  · exact himps ev hev
                  · exact hdimps _ ev hev
                  · rw [hev]
                    refine ⟨fun n b he => ?_, fun t b ls he => by simp at he⟩
                    simp only [Event.writeComment.injEq] at he
                    rw [← he.2]
                    exact hg
                · intro n hn hlf
                  simp only [List.mem_append, List.mem_singleton] at hn
                  rcases hn with (hn | hn) | hn
                  · exact (hreadfail n hn hlf).elim
                  · exact (hnotlist_dup _ n hn).elim
                  · simp at hn
        · -- some duplicate close fails
          rw [hsplit] at hfp
          have hsync := sync_dupfail o w it found u0 pre post bad evs h0 hfp hpre hbad
          rw [hsync]
          refine ⟨fun h => by simp at h, fun e he => rfl, ?_, fun n hn _ => ⟨_, rfl⟩⟩
          intro ev hev
          simp only [List.mem_append, List.mem_map, List.mem_singleton] at hev
          rcases hev with hev | ⟨u, -, he⟩ | hev
          · exact himps ev hev
          · refine writeOrCreate_false_impls ev ?_ _ _
            rw [← he]
            rfl
          · rw [hev]
            exact writeOrCreate_false_impls _ (by rfl) _ _

/-! ### The claims -/

/-- C2: if the item's ID token is already in the synced set, Sync returns
success immediately with no collaborator call and no state change; and
consequently, once a Sync call succeeds, a second call for the same item
succeeds, changes nothing, and issues zero collaborator (in particular
tracker-mutating) requests. -/
theorem C2_sync_idempotent :
    (∀ (o : Oracle) (w : World) (it : Item),
      w.synced.contains it.ID = true → sync o w it = (SyncOutcome.ok, w, [])) ∧
    (∀ (o o2 : Oracle) (w : World) (it : Item),
      (sync o w it).1 = SyncOutcome.ok →
      sync o2 (sync o w it).2.1 it = (SyncOutcome.ok, (sync o w it).2.1, [])) := by
  refine ⟨fun o w it h0 => sync_early o w it h0, fun o o2 w it hok => ?_⟩
  exact sync_early o2 _ it ((sync_master o w it).1 hok)

/-- C2 witness: with `it1` already synced, Sync is a pure no-op. -/
theorem C2_witness : sync oAll wSynced1 it1 = (SyncOutcome.ok, wSynced1, []) :=
  C2_sync_idempotent.1 oAll wSynced1 it1 rfl

/-- C8: whenever Sync returns a recoverable error, the synced set is
exactly as before the call; the token is added only on the success paths
(on success the resulting synced set contains it). -/
theorem C8_error_preserves_synced :
    (∀ (o : Oracle) (w : World) (it : Item) (e : String),
      (sync o w it).1 = SyncOutcome.err e → (sync o w it).2.1.synced = w.synced) ∧
    (∀ (o : Oracle) (w : World) (it : Item),
      (sync o w it).1 = SyncOutcome.ok →
      (sync o w it).2.1.synced.contains it.ID = true) :=
  ⟨fun o w it e he => (sync_master o w it).2.1 e he,
   fun o w it hok => (sync_master o w it).1 hok⟩

/-- C8 witness: a failing comment listing aborts `sync oList w7 it1` with
an error and leaves the synced set unchanged. -/
theorem C8_witness : (sync oList w7 it1).2.1.synced = w7.synced :=
  C8_error_preserves_synced.1 oList w7 it1
    ("error checking whether item id1 is recorded in issue 71: error getting comments for 71: io error")
    rfl

/-- C7: whenever a comment-listing call is made for a candidate and that
listing fails, the whole Sync call returns an error. -/
theorem C7_listfail_aborts (o : Oracle) (w : World) (it : Item) (n : Int)
    (hmem : Event.listComments n ∈ (sync o w it).2.2)
    (hlf : o.listFails n = true) :
    ∃ e, (sync o w it).1 = SyncOutcome.err e :=
  (sync_master o w it).2.2.2 n hmem hlf

/-- C7 witness: the failing listing of candidate 71 aborts the call. -/
theorem C7_witness : ∃ e, (sync oList w7 it1).1 = SyncOutcome.err e :=
  C7_listfail_aborts oList w7 it1 71 (by decide) rfl

theorem bodyContains_iff (b : Option String) (t : String) :
    bodyContains b t = true ↔ ∃ s, b = some s ∧ strContains s t = true := by
  cases b <;> simp [bodyContains]

/-- C3: when the comment listing for a candidate does not fail, the
recorded check succeeds, and it classifies the candidate as recorded
exactly when the issue body is present and contains the item's ID token as
a substring, or some comment has a present body containing the token
(absent comment bodies are skipped without error). -/
theorem C3_isRecorded_spec (o : Oracle) (obj : GIssue) (it : Item)
    (h : o.listFails obj.number = false) :
    (∃ r, (isRecorded o obj it).1 = Except.ok r) ∧
    ((isRecorded o obj it).1 = Except.ok true ↔ RecordedSpec obj it) := by
  by_cases h1 : bodyContains obj.body it.ID
  · have hv : (isRecorded o obj it).1 = Except.ok true := by simp [isRecorded, h1]
    refine ⟨⟨true, hv⟩, ?_⟩
    rw [hv]
    constructor
    · intro _
      exact Or.inl ((bodyContains_iff obj.body it.ID).mp h1)
    · intro _
      rfl
  · have h1f : bodyContains obj.body it.ID = false := by simpa using h1
    have hv : (isRecorded o obj it).1
        = Except.ok (obj.comments.any fun c => bodyContains c.body it.ID) := by
      simp [isRecorded, h1f, h]
    refine ⟨⟨_, hv⟩, ?_⟩
    rw [hv]
    constructor
    · intro hh
      simp only [Except.ok.injEq] at hh
      right
      obtain ⟨c, hc, hcb⟩ := List.any_eq_true.mp hh
      exact ⟨c, hc, (bodyContains_iff c.body it.ID).mp hcb⟩
    · intro hh
      rcases hh with ⟨b, hb, hcb⟩ | ⟨c, hc, b, hb, hcb⟩
      · rw [(bodyContains_iff obj.body it.ID).mpr ⟨b, hb, hcb⟩] at h1f
        simp at h1f
      · have hany : (obj.comments.any fun c => bodyContains c.body it.ID) = true :=
          List.any_eq_true.mpr ⟨c, hc, (bodyContains_iff c.body it.ID).mpr ⟨b, hb, hcb⟩⟩
        rw [hany]

/-- C3 witness: an issue with an absent body and a comment holding the
token is classified as recorded, and the check does not error. -/
theorem C3_witness :
    (∃ r, (isRecorded oAll obj3 it1).1 = Except.ok r) ∧
    ((isRecorded oAll obj3 it1).1 = Except.ok true ↔ RecordedSpec obj3 it1) :=
  C3_isRecorded_spec oAll obj3 it1 rfl

/-- C6: every comment body posted and every issue body created by Sync
contains the item's own ID token (the guard runs immediately before the
post); and when the produced body does not contain the token, the call
ends in the fatal (panic) outcome, not in the recoverable error outcome,
with no comment or creation event emitted for the token-free body. -/
theorem C6_body_guard :
    (∀ (o : Oracle) (w : World) (it : Item), ∀ ev ∈ (sync o w it).2.2,
      (∀ n b, ev = Event.writeComment n b → strContains b it.ID = true)
        ∧ (∀ t b ls, ev = Event.newIssue t b ls → strContains b it.ID = true)) ∧
    (∀ (o : Oracle) (w : World) (it : Item) (u0 : GIssue) (us : List GIssue)
        (evs : List Event),
      w.synced.contains it.ID = false →
      findPreviousIssues o w it = (Except.ok (false, u0 :: us), evs) →
      (∀ u ∈ us, o.closeFails u.number = false) →
      strContains (it.Body false) it.ID = false →
      (sync o w it).1 = SyncOutcome.fatal (progErrMsg (it.Body false) it.ID)) ∧
    (∀ (o : Oracle) (w : World) (it : Item) (evs : List Event),
      w.synced.contains it.ID = false →
      findPreviousIssues o w it = (Except.ok (false, []), evs) →
      strContains (it.Body true) it.ID = false →
      (sync o w it).1 = SyncOutcome.fatal (progErrMsg (it.Body true) it.ID)) := by
  refine ⟨fun o w it => (sync_master o w it).2.2.1, ?_, ?_⟩
  · intro o w it u0 us evs h0 hfp hclose hg
    rw [sync_update_fatal o w it u0 us evs h0 hfp hclose hg]
  · intro o w it evs h0 hfp hg
    rw [sync_create_fatal o w it evs h0 hfp hg]

/-- C6 witness: creating for an item whose body lacks its token panics
with the programmer-error message. -/
theorem C6_witness :
    (sync oAll wEmpty itBad).1 = SyncOutcome.fatal (progErrMsg (itBad.Body true) itBad.ID) :=
  C6_body_guard.2.2 oAll wEmpty itBad [Event.lookupAll "t6"] rfl rfl rfl

/-- C9: at the concrete failing input (no candidates, creation fails), the
error Sync returns is the wrap built from the method value `source.ID` --
a func-value rendering -- so, contrary to the claim, it does not contain
the item's ID token. -/
theorem C9_create_error_lacks_token :
    (sync oCreateFail wEmpty it9).1
      = SyncOutcome.err ("error making issue for " ++ goFuncValueText ++ ": " ++ ioErr) ∧
    strContains ("error making issue for " ++ goFuncValueText ++ ": " ++ ioErr) it9.ID
      = false := by
  exact ⟨rfl, by decide⟩

/-- C1: for an item whose ID token is not yet synced, with candidate
discovery succeeding and the needed duplicate closes succeeding, Sync
applies the first matching termination rule: (a) if any candidate is
recorded, it marks the token synced and succeeds without any comment or
creation call; (b) else if an open candidate exists, it posts a comment
built from `Body(false)` on the first open candidate and marks the token
synced on success; (c) else it creates an issue with `Title()`,
`Body(true)` and `Labels()`, registers the (title, number) pair with the
finder, and marks the token synced on success. -/
theorem C1_termination_rules (o : Oracle) (w : World) (it : Item)
    (found : Bool) (upd : List GIssue) (evs : List Event)
    (h0 : w.synced.contains it.ID = false)
    (hfp : findPreviousIssues o w it = (Except.ok (found, upd), evs))
    (hclose : ∀ u ∈ upd.drop 1, o.closeFails u.number = false) :
    (found = true →
      (sync o w it).1 = SyncOutcome.ok ∧
      (sync o w it).2.1.synced.contains it.ID = true ∧
      ∀ ev ∈ (sync o w it).2.2, ev.isWriteOrCreate = false) ∧
    (found = false → ∀ u0 us, upd = u0 :: us →
      strContains (it.Body false) it.ID = true →
      o.commentFails u0.number = false →
      (sync o w it).1 = SyncOutcome.ok ∧
      (sync o w it).2.1.synced.contains it.ID = true ∧
      Event.writeComment u0.number (it.Body false) ∈ (sync o w it).2.2 ∧
      ∀ ev ∈ (sync o w it).2.2, ev.isCreateEvent = false) ∧
    (found = false → upd = [] →
      strContains (it.Body true) it.ID = true →
      o.createFails = false →
      (sync o w it).1 = SyncOutcome.ok ∧
      (sync o w it).2.1.synced.contains it.ID = true ∧
      Event.newIssue it.Title (it.Body true) it.Labels ∈ (sync o w it).2.2 ∧
      Event.created it.Title o.newNumber ∈ (sync o w it).2.2 ∧
      (it.Title, o.newNumber) ∈ (sync o w it).2.1.finder) := by
  have hevs : ∀ ev ∈ evs, ev.isRead = true := by
    have h := findPreviousIssues_events o w it
    rw [hfp] at h
    exact h
  refine ⟨?_, ?_, ?_⟩
  · intro hft
    rw [hft] at hfp
    have hsync := sync_found o w it upd evs h0 hfp hclose
    rw [hsync]
    refine ⟨rfl, contains_append_self _ _, ?_⟩
    intro ev hev
    rcases List.mem_append.mp hev with hev | hev
    · exact isRead_not_writeOrCreate ev (hevs ev hev)
    · exact isClose_not_writeOrCreate ev (dupEvents_isClose upd ev hev)
  · intro hff u0 us hupd hg hcf
    rw [hff, hupd] at hfp
    rw [hupd] at hclose
    have hcl : ∀ u ∈ us, o.closeFails u.number = false := by simpa using hclose
    have hsync := sync_update o w it u0 us evs h0 hfp hcl hg hcf
    rw [hsync]
    refine ⟨rfl, contains_append_self _ _, ?_, ?_⟩
    · exact List.mem_append_right _ (List.mem_singleton_self _)
    · intro ev hev
      rcases List.mem_append.mp hev with hev | hev
      · rcases List.mem_append.mp hev with hev | hev
        · exact isRead_not_createEvent ev (hevs ev hev)
        · exact isClose_not_createEvent ev (dupEvents_isClose _ ev hev)
      · rw [List.mem_singleton.mp hev]
        rfl
  · intro hff hupd hg hcf
    rw [hff, hupd] at hfp
    have hsync := sync_create o w it evs h0 hfp hg hcf
    rw [hsync]
    refine ⟨rfl, contains_append_self _ _, ?_, ?_, ?_⟩
    · exact List.mem_append_right _ (by simp)
    · exact List.mem_append_right _ (by simp)
    · exact List.mem_append_right _ (by simp)

/-- C1 witness: with no candidates, rule (c) fires on `it1`. -/
theorem C1_witness :
    (sync oAll wEmpty it1).1 = SyncOutcome.ok ∧
    (sync oAll wEmpty it1).2.1.synced.contains it1.ID = true ∧
    Event.newIssue it1.Title (it1.Body true) it1.Labels ∈ (sync oAll wEmpty it1).2.2 ∧
    Event.created it1.Title oAll.newNumber ∈ (sync oAll wEmpty it1).2.2 ∧
    (it1.Title, oAll.newNumber) ∈ (sync oAll wEmpty it1).2.1.finder :=
  (C1_termination_rules oAll wEmpty it1 false [] [Event.lookupAll "t1"]
    rfl rfl (by simp)).2.2 rfl rfl rfl rfl

/-- C4: for an item not yet synced whose discovery yields more than one
open candidate, Sync keeps the candidate at index 0 and closes every other
open candidate with the duplicate message referencing the kept issue's
number; and if closing one duplicate fails, Sync returns that close error
and the duplicates after the failed one keep their previous state. -/
theorem C4_dup_closing (o : Oracle) (w : World) (it : Item) (found : Bool)
    (u0 u1 : GIssue) (rest : List GIssue) (evs : List Event)
    (h0 : w.synced.contains it.ID = false)
    (hfp : findPreviousIssues o w it = (Except.ok (found, u0 :: u1 :: rest), evs)) :
    ((∀ u ∈ u1 :: rest, o.closeFails u.number = false) →
      ∀ u ∈ u1 :: rest,
        Event.closeIssue u.number (dupMsg u0.number) ∈ (sync o w it).2.2 ∧
        openIn (sync o w it).2.1.issues u.number = false) ∧
    (∀ pre bad post, u1 :: rest = pre ++ bad :: post →
      (∀ u ∈ pre, o.closeFails u.number = false) →
      o.closeFails bad.number = true →
      (sync o w it).1 = SyncOutcome.err (closeErrMsg bad.number u0.number) ∧
      ∀ u ∈ post, u.number ∉ pre.map (fun x => x.number) →
        openIn (sync o w it).2.1.issues u.number = openIn w.issues u.number) := by
  constructor
  · intro hok u hu
    have hmemmap : u.number ∈ (u1 :: rest).map fun x => x.number :=
      List.mem_map_of_mem _ hu
    have hdupmem : Event.closeIssue u.number (dupMsg u0.number)
        ∈ dupEvents (u0 :: u1 :: rest) := by
      simp only [dupEvents]
      exact List.mem_map_of_mem _ hu
    cases found with
    | true =>
      have hsync := sync_found o w it (u0 :: u1 :: rest) evs h0 hfp (by simpa using hok)
      rw [hsync]
      simp only [List.drop_succ_cons, List.drop_zero]
      exact ⟨List.mem_append_right _ hdupmem, openIn_closeNums_mem _ _ _ hmemmap⟩
    | false =>
      cases hg : strContains (it.Body false) it.ID with
      | false =>
        have hsync := sync_update_fatal o w it u0 (u1 :: rest) evs h0 hfp hok hg
        rw [hsync]
        exact ⟨List.mem_append_right _ hdupmem, openIn_closeNums_mem _ _ _ hmemmap⟩
      | true =>
        cases hcf : o.commentFails u0.number with
        | true =>
          have hsync := sync_update_commentFail o w it u0 (u1 :: rest) evs h0 hfp hok hg hcf
          rw [hsync]
          refine ⟨List.mem_append_left _ (List.mem_append_right _ hdupmem),
            openIn_closeNums_mem _ _ _ hmemmap⟩
        | false =>
          have hsync := sync_update o w it u0 (u1 :: rest) evs h0 hfp hok hg hcf
          rw [hsync]
          refine ⟨List.mem_append_left _ (List.mem_append_right _ hdupmem), ?_⟩
          rw [openIn_commentNum]
          exact openIn_closeNums_mem _ _ _ hmemmap
  · intro pre bad post hsplit hpre hbad
    rw [hsplit] at hfp
    have hsync := sync_dupfail o w it found u0 pre post bad evs h0 hfp hpre hbad
    rw [hsync]
    refine ⟨rfl, ?_⟩
    intro u _ hnot
    exact openIn_closeNums_notmem pre w.issues u.number hnot

/-- C4 witness: with open candidates 45, 46, 47 (in discovery order) and
no token recorded, Sync closes 46 referencing 45, and 46 is closed
afterwards. -/
theorem C4_witness :
    Event.closeIssue i46.number (dupMsg i45.number) ∈ (sync oAll w4 it1).2.2 ∧
    openIn (sync oAll w4 it1).2.1.issues i46.number = false :=
  (C4_dup_closing oAll w4 it1 false i45 i46 [i47]
    [Event.lookupAll "t1", Event.fetch 45, Event.listComments 45, Event.fetch 46,
     Event.listComments 46, Event.fetch 47, Event.listComments 47]
    rfl rfl).1 (by simp [oAll]) i46 (by simp)

theorem openObjAt_number {w : World} {n : Int} {u : GIssue}
    (h : openObjAt w n = some u) : u.number = n := by
  simp only [openObjAt] at h
  cases hfn : findNum w.issues n with
  | none => simp [hfn] at h
  | some i =>
    simp only [hfn] at h
    cases hst : (i.state == some "open") with
    | true =>
      simp only [hst, if_true, Option.some.injEq] at h
      rw [← h]
      exact findNum_beq hfn
    | false => simp [hst] at h

/-- C10: the recorded classification ignores issue state: when every
candidate fetch and needed listing succeeds, every candidate close
succeeds, and some candidate that is not open records the item's ID token,
Sync marks the token synced and returns success without posting any
comment or creating any issue. -/
theorem C10_recorded_ignores_state (o : Oracle) (w : World) (it : Item)
    (h0 : w.synced.contains it.ID = false)
    (hready : ∀ n ∈ allIssuesForKey w it.Title, candReady o w it n)
    (hclose : ∀ n ∈ allIssuesForKey w it.Title, o.closeFails n = false)
    (hrec : ∃ n ∈ allIssuesForKey w it.Title,
      recAt w it n = true ∧ openIn w.issues n = false) :
    (sync o w it).1 = SyncOutcome.ok ∧
    (sync o w it).2.1.synced.contains it.ID = true ∧
    ∀ ev ∈ (sync o w it).2.2, ev.isWriteOrCreate = false := by
  obtain ⟨evs, hfp⟩ := findPreviousIssues_run o w it hready
  have hfound : (allIssuesForKey w it.Title).any (recAt w it) = true := by
    obtain ⟨n, hn, hr, -⟩ := hrec
    exact List.any_eq_true.mpr ⟨n, hn, hr⟩
  rw [hfound] at hfp
  have hevs : ∀ ev ∈ evs, ev.isRead = true := by
    have h := findPreviousIssues_events o w it
    rw [hfp] at h
    exact h
  have hcl : ∀ u ∈ ((allIssuesForKey w it.Title).filterMap (openObjAt w)).drop 1,
      o.closeFails u.number = false := by
    intro u hu
    have hu2 : u ∈ (allIssuesForKey w it.Title).filterMap (openObjAt w) :=
      List.drop_subset _ _ hu
    obtain ⟨n, hn, he⟩ := List.mem_filterMap.mp hu2
    rw [openObjAt_number he]
    exact hclose n hn
  have hsync := sync_found o w it _ evs h0 hfp hcl
  rw [hsync]
  refine ⟨rfl, contains_append_self _ _, ?_⟩
  intro ev hev
  rcases List.mem_append.mp hev with hev | hev
  · exact isRead_not_writeOrCreate ev (hevs ev hev)
  · exact isClose_not_writeOrCreate ev (dupEvents_isClose _ ev hev)

/-- C10 witness: a closed candidate recording `it1`'s token makes Sync a
successful no-op apart from discovery. -/
theorem C10_witness :
    (sync oAll w10 it1).1 = SyncOutcome.ok ∧
    (sync oAll w10 it1).2.1.synced.contains it1.ID = true ∧
    ∀ ev ∈ (sync oAll w10 it1).2.2, ev.isWriteOrCreate = false :=
  C10_recorded_ignores_state oAll w10 it1 rfl
    (by
      intro n hn
      simp only [allIssuesForKey, w10, it1] at hn
      simp only [List.filter, List.map] at hn
      have hn101 : n = 101 := by simpa using hn
      subst hn101
      exact ⟨rfl, i10, rfl, Or.inr rfl⟩)
    (fun n _ => rfl)
    ⟨101, by decide, rfl, rfl⟩

theorem markAsDups_ok_closes (o : Oracle) (ofN : Int) :
    ∀ (ds : List GIssue) (w w1 : World) (u : Unit) (evs1 : List Event),
    markAsDups o w ds ofN = (Except.ok u, w1, evs1) →
    ∀ d ∈ ds, o.closeFails d.number = false := by
  intro ds
  induction ds with
  | nil => intro w w1 u evs1 _ d hd; simp at hd
  | cons d t ih =>
    intro w w1 u evs1 h e he
    simp only [markAsDups] at h
    cases hc : o.closeFails d.number with
    | true => rw [hc] at h; simp at h
    | false =>
      rw [hc] at h
      simp only [Bool.false_eq_true, if_false] at h
      rcases List.mem_cons.mp he with he1 | he1
      · rw [he1]; exact hc
      · rcases hm : markAsDups o { w with issues := closeNum w.issues d.number } t ofN
          with ⟨r1, w2, evs2⟩
        rw [hm] at h
        simp only [Prod.mk.injEq] at h
        cases r1 with
        | error er => simp at h
        | ok v => exact ih _ _ _ _ hm e he1

/-- C5 counterexample: with `it5`'s token already in the synced set and
two open tracking issues for its title, Sync returns success without
touching the tracker, so more than one open issue remains: the claim as
stated fails on the early-exit path. -/
theorem C5_counterexample :
    (sync oAll w5syn it5).1 = SyncOutcome.ok ∧
    1 < (openCandNumbers w5syn it5.Title).dedup.length ∧
    1 < (openCandNumbers (sync oAll w5syn it5).2.1 it5.Title).dedup.length := by
  exact ⟨rfl, by decide, by decide⟩

/-- C5 (amended): for an item whose ID token is NOT yet in the synced set,
every successful Sync call leaves at most one open tracking issue for the
item's title whenever more than one distinct issue was open before. -/
theorem C5_amended (o : Oracle) (w : World) (it : Item)
    (h0 : w.synced.contains it.ID = false)
    (hok : (sync o w it).1 = SyncOutcome.ok)
    (hbefore : 1 < (openCandNumbers w it.Title).dedup.length) :
    (openCandNumbers (sync o w it).2.1 it.Title).dedup.length ≤ 1 := by
  have h0m : it.ID ∉ w.synced := not_mem_of_contains_false h0
  rcases hfp : findPreviousIssues o w it with ⟨r, evs⟩
  cases r with
  | error e =>
    rw [sync_discovery_err o w it e evs h0 hfp] at hok
    simp at hok
  | ok p =>
    rcases p with ⟨found, upd⟩
    have hfp1 : (findPrevLoop o w it (allIssuesForKey w it.Title) false []).1
        = Except.ok (found, upd) := by
      have h := congrArg Prod.fst hfp
      simpa [findPreviousIssues] using h
    have hupdmap : upd.map (fun i => i.number) = openCandNumbers w it.Title := by
      have h := findPrevLoop_ok_upd o w it (allIssuesForKey w it.Title) false [] found upd hfp1
      simpa [openCandNumbers] using h
    rcases upd with - | ⟨u0, - | ⟨u1, rest⟩⟩
    · rw [← hupdmap] at hbefore
      simp at hbefore
    · rw [← hupdmap] at hbefore
      simp at hbefore
    · have main : ∀ wi : List GIssue,
          (∀ x, openIn wi x = openIn (closeNums w.issues (u1 :: rest)) x) →
          ∀ x ∈ (allIssuesForKey w it.Title).filter (fun n => openIn wi n),
            x = u0.number := by
        intro wi hwi x hx
        obtain ⟨hxc, hxo⟩ := List.mem_filter.mp hx
        rw [hwi x] at hxo
        by_cases hxm : x ∈ (u1 :: rest).map fun u => u.number
        · rw [openIn_closeNums_mem _ _ _ hxm] at hxo
          exact absurd hxo (by simp)
        · rw [openIn_closeNums_notmem _ _ _ hxm] at hxo
          have hxopen : x ∈ openCandNumbers w it.Title := by
            rw [openCandNumbers]
            exact List.mem_filter.mpr ⟨hxc, hxo⟩
          rw [← hupdmap] at hxopen
          simp only [List.map_cons, List.mem_cons] at hxopen
          rcases hxopen with h | h
          · exact h
          · exact absurd (by simpa using h) hxm
      rcases hm : markAsDups o w (u1 :: rest) u0.number with ⟨res, w1, evs1⟩
      cases res with
      | error e =>
        have hserr : (sync o w it).1 = SyncOutcome.err e := by
          simp [sync, h0m, hfp, hm]
        rw [hserr] at hok
        simp at hok
      | ok uu =>
        have hcl : ∀ u ∈ u1 :: rest, o.closeFails u.number = false :=
          markAsDups_ok_closes o u0.number (u1 :: rest) w w1 uu evs1 hm
        cases found with
        | true =>
          have hsync := sync_found o w it (u0 :: u1 :: rest) evs h0 hfp (by simpa using hcl)
          rw [hsync]
          simp only [List.drop_succ_cons, List.drop_zero]
          exact dedup_length_le_one u0.number (main _ (fun x => rfl))
        | false =>
          cases hg : strContains (it.Body false) it.ID with
          | false =>
            have hsync := sync_update_fatal o w it u0 (u1 :: rest) evs h0 hfp hcl hg
            rw [hsync] at hok
            simp at hok
          | true =>
            cases hcf : o.commentFails u0.number with
            | true =>
              have hsync := sync_update_commentFail o w it u0 (u1 :: rest) evs h0 hfp hcl hg hcf
              rw [hsync] at hok
              simp at hok
            | false =>
              have hsync := sync_update o w it u0 (u1 :: rest) evs h0 hfp hcl hg hcf
              rw [hsync]
              exact dedup_length_le_one u0.number
                (main _ (fun x => openIn_commentNum _ _ _ _))

/-- C5 witness: two open unrecorded candidates, token not yet synced: the
successful call leaves at most one of them open. -/
theorem C5_witness :
    (openCandNumbers (sync oAll w5open it5).2.1 it5.Title).dedup.length ≤ 1 :=
  C5_amended oAll w5open it5 rfl rfl (by decide)
